import Mathlib

/-!
Shallow embedding of the real-time device state synchronization engine of
the Multi_inst web UI (webui/src/store/useAppStore.ts together with the data
shapes of webui/src/lib/api.ts).

Modelling conventions:
- JS objects used as string-keyed maps (the `devices` record) are embedded as
  association lists in insertion order; property update keeps the position of
  an existing key and appends a fresh key, property deletion removes the
  entry, matching JS object semantics (which guarantee at most one entry per
  key).
- `Date.now()` is a `Nat` parameter (milliseconds) passed to each event
  handler; the two reads of `Date.now()` inside one synchronous handler are
  identified, as they denote the same instant in the single-threaded model.
- `Array.prototype.sort` with a comparator is embedded as `List.mergeSort`
  on the comparator-induced boolean order, since ECMAScript requires the
  sort to be stable and consistent with the comparator.
- `String.prototype.localeCompare` is embedded as code-point lexicographic
  comparison (the behavior on the ASCII port paths this code compares).
- `Math.round` on a nonnegative quotient of integers is embedded exactly,
  halves rounding up.
-/

namespace MultiInst

/-- Filter values of the UI store, from `type FilterType` in useAppStore.ts. -/
inductive FilterType
  | all
  | ok
  | not_ok
  | testing
deriving DecidableEq, Repr

/-- Sort keys of the UI store, from `type SortType` in useAppStore.ts. -/
inductive SortType
  | status
  | port
  | updated
deriving DecidableEq, Repr

/-- Session mode, from the `mode` field of the store. -/
inductive Mode
  | normal
  | pro
deriving DecidableEq, Repr

/-- Test profile, from the `profile` field of the store. -/
inductive Profile
  | usb_stand
  | field_strict
deriving DecidableEq, Repr

/-- Color theme, from the `theme` field of the store. -/
inductive Theme
  | dark
  | light
deriving DecidableEq, Repr

/-- One device record, from `interface DeviceSnapshot` in api.ts. The fields
the synchronization core reads are embedded precisely; the remaining opaque
payload records (meta, status, attitude, analog, loop, imu_stats, meter
tables, history, raw_packets), which the core copies verbatim and never
inspects, are represented by the single uninterpreted field `meta`. -/
structure DeviceSnapshot where
  uid : Option String
  port : String
  ok : Option Bool
  reasons : List String
  state : String
  updated : Option Nat
  meta : List (String × String)
deriving DecidableEq, Repr

/-- The canonical device mapping `Record<string, DeviceSnapshot>`, embedded
as an association list in JS property insertion order. -/
abbrev DeviceMap := List (String × DeviceSnapshot)

/-- Property read `devices[k]`: the value at the first entry for the key. -/
def getKey (m : DeviceMap) (k : String) : Option DeviceSnapshot :=
  match m with
  | [] => none
  | p :: rest => if p.1 = k then some p.2 else getKey rest k

/-- Spread update of a JS object: an existing key keeps its position and gets
the new value, a fresh key is appended at the end. -/
def setKey (m : DeviceMap) (k : String) (v : DeviceSnapshot) : DeviceMap :=
  match m with
  | [] => [(k, v)]
  | p :: rest => if p.1 = k then (k, v) :: rest else p :: setKey rest k v

/-- Property deletion `delete devices[k]`: every entry for the key is removed
(a JS object holds at most one). -/
def deleteKey (m : DeviceMap) (k : String) : DeviceMap :=
  m.filter (fun p => decide (¬ p.1 = k))

/-- Ports descriptor, an opaque payload from the control API. -/
abbrev PortInfo := List (String × String)

/-- The store state, from `interface AppState` in useAppStore.ts (data fields
only; the action closures are embedded as the functions below). -/
structure AppState where
  sessionId : Option String
  devices : DeviceMap
  loading : Bool
  error : Option String
  mode : Mode
  auto : Bool
  profile : Profile
  simulate : Bool
  includeSimulator : Bool
  filter : FilterType
  search : String
  sort : SortType
  fps : Nat
  frames : Nat
  lastFrameTs : Nat
  theme : Theme
  ports : List PortInfo
deriving DecidableEq, Repr

/-- An inbound stream envelope. The code dispatches on the `type` string of
the parsed message; `unknown` stands for any unrecognized tag, which the
handler drops. -/
inductive StreamEvent
  | snapshot (uid : String) (data : DeviceSnapshot)
  | removed (uid : String)
  | probeFailed (reason : String)
  | unknown
deriving DecidableEq, Repr

/-- True exactly on snapshot envelopes. -/
def isSnapshot : StreamEvent → Bool
  | .snapshot _ _ => true
  | _ => false

/-- Math.round on the nonnegative quotient num/den for den > 0: nearest
integer, halves rounding up. -/
def jsRound (num den : Nat) : Nat :=
  (2 * num + den) / (2 * den)

/-- The `handleEvent` action of the store (useAppStore.ts lines 174-196),
with `Date.now()` passed in as `now`. A snapshot upserts the device record
and feeds the throughput meter; `removed` deletes the record; `probe_failed`
sets the session-level error; anything else is dropped. -/
def handleEvent (now : Nat) (event : StreamEvent) (s : AppState) : AppState :=
  match event with
  | .snapshot uid data =>
    let nextDevices := setKey s.devices uid data
    let newFrames := s.frames + 1
    let lastTs := if s.lastFrameTs = 0 then now else s.lastFrameTs
    if 1000 ≤ now - lastTs then
      { s with devices := nextDevices
               frames := 0
               lastFrameTs := now
               fps := jsRound (newFrames * 1000) (now - lastTs) }
    else
      { s with devices := nextDevices
               frames := newFrames
               lastFrameTs := lastTs
               fps := s.fps }
  | .removed uid => { s with devices := deleteKey s.devices uid }
  | .probeFailed reason => { s with error := some reason }
  | .unknown => s

/-- Sequential application of a timestamped event trace, one envelope at a
time in arrival order. -/
def applyEvents (es : List (Nat × StreamEvent)) (s : AppState) : AppState :=
  es.foldl (fun st te => handleEvent te.1 te.2 st) s

/-- The data payloads of the snapshot envelopes for one key, in trace order. -/
def upsertsTo (k : String) (es : List (Nat × StreamEvent)) : List DeviceSnapshot :=
  es.filterMap (fun te =>
    match te.2 with
    | .snapshot u d => if u = k then some d else none
    | _ => none)

/-- The `ws.onclose` handler installed by `start` (useAppStore.ts lines
104-108): clear the session id only when the closed connection still belongs
to the currently designated session. -/
def onClose (sid : String) (s : AppState) : AppState :=
  if s.sessionId = some sid then { s with sessionId := none } else s

/-- Outcome of the `startSession` control API call. -/
inductive ApiResult
  | ok (sessionId : String)
  | err (msg : String)
deriving DecidableEq, Repr

/-- The `start` action (useAppStore.ts lines 78-113) as a state transformer
parameterized by the control API outcome: guard on `loading`, then clear
devices and counters and set the loading flag, then either record the fresh
session id (success) or the error string (failure), releasing the flag in
the finally clause. The websocket wiring is external I/O. -/
def startRun (apiResult : ApiResult) (s : AppState) : AppState :=
  if s.loading then s
  else
    let s1 := { s with loading := true
                       error := none
                       devices := ([] : DeviceMap)
                       fps := 0
                       frames := 0
                       lastFrameTs := 0 }
    match apiResult with
    | .ok sid => { s1 with sessionId := some sid, devices := ([] : DeviceMap), loading := false }
    | .err m => { s1 with error := some m, loading := false }

/-- The `stop` action (useAppStore.ts lines 115-121) as a state transformer:
no-op without a session, otherwise clear the session id, the canonical set
and the throughput counters after the stop API call returns. -/
def stopRun (s : AppState) : AppState :=
  match s.sessionId with
  | none => s
  | some _ =>
    { s with sessionId := none
             devices := ([] : DeviceMap)
             fps := 0
             frames := 0
             lastFrameTs := 0 }

/-- Store state observable while the `stop` API call is in flight: `stop`
performs no `set` before `await stopSession(sessionId)` (useAppStore.ts
lines 115-118), so the state is the pre-stop state unchanged. -/
def stopInFlightState (s : AppState) : AppState := s

/-- Keys of the canonical set are pairwise distinct. -/
def keysNodup (m : DeviceMap) : Prop :=
  (m.map (fun p => p.1)).Nodup

instance (m : DeviceMap) : Decidable (keysNodup m) := by
  unfold keysNodup
  infer_instance

/-- The `filterDevice` helper (useAppStore.ts lines 218-224). -/
def filterDevice (device : DeviceSnapshot) (filter : FilterType) : Bool :=
  match filter with
  | .all => true
  | .testing => decide (device.state = "testing")
  | .ok => decide (device.ok = some true)
  | .not_ok => decide (device.ok = some false)

/-- Comparator outcome of `localeCompare`, embedded as code-point
lexicographic comparison on the port strings. -/
def strCmp (a b : String) : Int :=
  if a < b then -1 else if b < a then 1 else 0

/-- Severity rank of the status sort (the `order` helper inside
`compareDevices`, useAppStore.ts lines 234-239). -/
def statusOrder (device : DeviceSnapshot) : Int :=
  if device.state = "testing" then 0
  else if device.ok = some false then 1
  else if device.ok = some true then 2
  else 3

/-- The `compareDevices` comparator (useAppStore.ts lines 226-241). -/
def compareDevices (a b : DeviceSnapshot) (sort : SortType) : Int :=
  match sort with
  | .port => strCmp a.port b.port
  | .updated => (b.updated.getD 0 : Int) - (a.updated.getD 0 : Int)
  | .status => statusOrder a - statusOrder b

/-- Boolean order induced by the comparator, as consumed by the stable sort. -/
def devLE (sort : SortType) (a b : DeviceSnapshot) : Bool :=
  decide (compareDevices a b sort ≤ 0)

/-- JS `String.prototype.toLowerCase`, embedded character-wise. -/
def jsToLower (s : String) : String :=
  ⟨s.data.map Char.toLower⟩

/-- JS `String.prototype.trim`: strip leading and trailing whitespace. -/
def jsTrim (s : String) : String :=
  ⟨((s.data.dropWhile Char.isWhitespace).reverse.dropWhile Char.isWhitespace).reverse⟩

/-- Search label of a device: identifier and port joined by a space
(useAppStore.ts line 212). -/
def labelOf (device : DeviceSnapshot) : String :=
  (device.uid.getD "") ++ " " ++ device.port

/-- Substring test on character lists: does the pattern occur contiguously? -/
def charsPrefixOf : List Char → List Char → Bool
  | [], _ => true
  | _ :: _, [] => false
  | a :: as, b :: bs => a = b && charsPrefixOf as bs

/-- JS `String.prototype.includes`: the pattern occurs contiguously in the
string. -/
def strContains (s pat : String) : Bool :=
  go pat.data s.data
where
  go (pat : List Char) : List Char → Bool
    | [] => pat.isEmpty
    | c :: cs => charsPrefixOf pat (c :: cs) || go pat cs

/-- The per-record predicate of `useFilteredDevices` (useAppStore.ts lines
207-214): with an empty normalized search only the filter applies, otherwise
the case-folded label must contain the normalized search and the filter must
pass as well. -/
def passes (filter : FilterType) (search : String) (device : DeviceSnapshot) : Bool :=
  let normalizedSearch := jsToLower (jsTrim search)
  if normalizedSearch = "" then filterDevice device filter
  else strContains (jsToLower (labelOf device)) normalizedSearch && filterDevice device filter

/-- The pure projection computed by `useFilteredDevices` (useAppStore.ts
lines 199-216): take the values of the canonical mapping in insertion order,
filter by search and filter criteria, and stable-sort by the comparator. -/
def project (m : DeviceMap) (filter : FilterType) (search : String) (sort : SortType) :
    List DeviceSnapshot :=
  (((m.map (fun p => p.2)).filter (passes filter search)).mergeSort (devLE sort))

/-! Concrete states and traces used by witnesses and counterexamples. -/

/-- Example settled record with an upstream-assigned updated timestamp. -/
def exDevice : DeviceSnapshot :=
  { uid := some ("A"), port := "/dev/ttyACM0", ok := some true, reasons := [],
    state := "settled", updated := some 42, meta := [] }

/-- Example failed record on a second port. -/
def exDeviceB : DeviceSnapshot :=
  { uid := some ("B"), port := "/dev/ttyACM1", ok := some false, reasons := ["VBAT_LOW"],
    state := "settled", updated := some 50, meta := [] }

/-- Example still-testing record for the same device as exDevice. -/
def exDeviceT : DeviceSnapshot :=
  { uid := some ("A"), port := "/dev/ttyACM0", ok := none, reasons := [],
    state := "testing", updated := some 41, meta := [] }

/-- The initial store state (useAppStore.ts lines 61-77). -/
def emptyState : AppState :=
  { sessionId := none, devices := [], loading := false, error := none,
    mode := .normal, auto := true, profile := .usb_stand, simulate := false,
    includeSimulator := false, filter := .all, search := "", sort := .status,
    fps := 0, frames := 0, lastFrameTs := 0, theme := .dark, ports := [] }

/-- A store state with an active session holding one canonical record. -/
def exState : AppState :=
  { emptyState with sessionId := some ("s1"), devices := [(("A" : String), exDevice)] }

/-- A store state with the throughput window started at 1 ms. -/
def exMeterState : AppState :=
  { emptyState with lastFrameTs := 1 }

/-- A three-snapshot trace: two writes to key A around one write to key B. -/
def exTrace : List (Nat × StreamEvent) :=
  [(1, .snapshot ("A") exDeviceT), (2, .snapshot ("B") exDeviceB), (3, .snapshot ("A") exDevice)]

/-! Helper lemmas about the association-list embedding of the devices map. -/

theorem getKey_setKey_self (m : DeviceMap) (k : String) (v : DeviceSnapshot) :
    getKey (setKey m k v) k = some v := by
  induction m with
  | nil => simp [getKey, setKey]
  | cons p rest ih =>
    by_cases h : p.1 = k
    · simp [getKey, setKey, h]
    · simpa [getKey, setKey, h] using ih

theorem getKey_setKey_ne (m : DeviceMap) (k : String) (v : DeviceSnapshot)
    (k' : String) (h : k' ≠ k) :
    getKey (setKey m k v) k' = getKey m k' := by
  induction m with
  | nil => simp [getKey, setKey, Ne.symm h]
  | cons p rest ih =>
    by_cases hp : p.1 = k
    · simp [getKey, setKey, hp, Ne.symm h, h]
    · by_cases hk : p.1 = k'
      · simp [getKey, setKey, hp, hk, h]
      · simpa [getKey, setKey, hp, hk, h] using ih

theorem setKey_idem (m : DeviceMap) (k : String) (v : DeviceSnapshot) :
    setKey (setKey m k v) k v = setKey m k v := by
  induction m with
  | nil => simp [setKey]
  | cons p rest ih =>
    by_cases hp : p.1 = k
    · simp [setKey, hp]
    · simp [setKey, hp, ih]

theorem mem_keys_setKey (m : DeviceMap) (k : String) (v : DeviceSnapshot) (a : String) :
    a ∈ (setKey m k v).map (fun p => p.1) ↔ a ∈ m.map (fun p => p.1) ∨ a = k := by
  induction m with
  | nil => simp [setKey]
  | cons p rest ih =>
    by_cases hp : p.1 = k
    · have hset : setKey (p :: rest) k v = (k, v) :: rest := by
        simp [setKey, hp]
      rw [hset]
      simp only [List.map_cons, List.mem_cons, hp]
      tauto
    · simp only [setKey, if_neg hp, List.map_cons, List.mem_cons, ih]
      tauto

theorem keysNodup_setKey (m : DeviceMap) (k : String) (v : DeviceSnapshot)
    (h : keysNodup m) : keysNodup (setKey m k v) := by
  induction m with
  | nil => simp [keysNodup, setKey]
  | cons p rest ih =>
    simp only [keysNodup, List.map_cons, List.nodup_cons] at h
    by_cases hp : p.1 = k
    · subst hp
      simpa [keysNodup, setKey] using h
    · have hrest := ih h.2
      simp only [keysNodup, setKey, if_neg hp, List.map_cons, List.nodup_cons]
      refine ⟨?_, hrest⟩
      intro hmem
      rcases (mem_keys_setKey rest k v p.1).mp hmem with hin | heq
      · exact h.1 hin
      · exact hp heq

theorem deleteKey_sublist (m : DeviceMap) (k : String) :
    (deleteKey m k).Sublist m :=
  List.filter_sublist m

theorem keysNodup_deleteKey (m : DeviceMap) (k : String) (h : keysNodup m) :
    keysNodup (deleteKey m k) :=
  List.Nodup.sublist (List.Sublist.map _ (deleteKey_sublist m k)) h

theorem getKey_deleteKey_self (m : DeviceMap) (k : String) :
    getKey (deleteKey m k) k = none := by
  induction m with
  | nil => simp [getKey, deleteKey]
  | cons p rest ih =>
    by_cases hp : p.1 = k
    · simpa [deleteKey, List.filter_cons, hp] using ih
    · simpa [getKey, deleteKey, List.filter_cons, hp] using ih

theorem getKey_deleteKey_ne (m : DeviceMap) (k k' : String) (h : k' ≠ k) :
    getKey (deleteKey m k) k' = getKey m k' := by
  induction m with
  | nil => simp [getKey, deleteKey]
  | cons p rest ih =>
    by_cases hp : p.1 = k
    · simpa [getKey, deleteKey, List.filter_cons, hp, Ne.symm h, h] using ih
    · by_cases hk : p.1 = k'
      · simp [getKey, deleteKey, List.filter_cons, hp, hk, h]
      · simpa [getKey, deleteKey, List.filter_cons, hp, hk, h] using ih

theorem deleteKey_of_absent (m : DeviceMap) (k : String) (h : getKey m k = none) :
    deleteKey m k = m := by
  induction m with
  | nil => simp [deleteKey]
  | cons p rest ih =>
    by_cases hp : p.1 = k
    · exfalso
      simp [getKey, hp] at h
    · rw [getKey, if_neg hp] at h
      simp [deleteKey, List.filter_cons, hp] at ih ⊢
      exact ih h

/-! Helper lemmas about the event handler. -/

theorem handleEvent_snapshot_eq (now : Nat) (uid : String) (d : DeviceSnapshot)
    (s : AppState) :
    handleEvent now (.snapshot uid d) s =
      if 1000 ≤ now - (if s.lastFrameTs = 0 then now else s.lastFrameTs) then
        { s with devices := setKey s.devices uid d
                 frames := 0
                 lastFrameTs := now
                 fps := jsRound ((s.frames + 1) * 1000)
                          (now - (if s.lastFrameTs = 0 then now else s.lastFrameTs)) }
      else
        { s with devices := setKey s.devices uid d
                 frames := s.frames + 1
                 lastFrameTs := if s.lastFrameTs = 0 then now else s.lastFrameTs
                 fps := s.fps } := rfl

theorem handleEvent_snapshot_devices (now : Nat) (uid : String) (d : DeviceSnapshot)
    (s : AppState) :
    (handleEvent now (.snapshot uid d) s).devices = setKey s.devices uid d := by
  rw [handleEvent_snapshot_eq]
  split <;> split <;> rfl

theorem keysNodup_handleEvent (t : Nat) (e : StreamEvent) (s : AppState)
    (h : keysNodup s.devices) : keysNodup (handleEvent t e s).devices := by
  cases e with
  | snapshot uid d =>
    rw [handleEvent_snapshot_devices]
    exact keysNodup_setKey _ _ _ h
  | removed uid => exact keysNodup_deleteKey _ _ h
  | probeFailed reason => exact h
  | unknown => exact h

theorem keysNodup_applyEvents (es : List (Nat × StreamEvent)) (s : AppState)
    (h : keysNodup s.devices) : keysNodup (applyEvents es s).devices := by
  induction es generalizing s with
  | nil => exact h
  | cons te rest ih =>
    exact ih (handleEvent te.1 te.2 s) (keysNodup_handleEvent te.1 te.2 s h)

theorem upsertsTo_singleton (k : String) (t : Nat) (u : String) (d : DeviceSnapshot) :
    upsertsTo k [(t, StreamEvent.snapshot u d)] = if u = k then [d] else [] := by
  by_cases h : u = k <;> simp [upsertsTo, List.filterMap, h]

theorem getKey_applyEvents_snapshots (es : List (Nat × StreamEvent)) (s : AppState)
    (k : String) (hall : ∀ te ∈ es, isSnapshot te.2 = true) :
    getKey (applyEvents es s).devices k =
      ((upsertsTo k es).getLast?).or (getKey s.devices k) := by
  induction es using List.reverseRecOn with
  | nil => simp [applyEvents, upsertsTo, Option.or]
  | append_singleton rest te ih =>
    have hrest : ∀ te ∈ rest, isSnapshot te.2 = true := fun x hx =>
      hall x (List.mem_append_left _ hx)
    have hte : isSnapshot te.2 = true := hall te (List.mem_append_right _ (by simp))
    obtain ⟨u, d, hud⟩ : ∃ u d, te.2 = StreamEvent.snapshot u d := by
      cases h : te.2 <;> simp [h, isSnapshot] at hte ⊢
    have happ : applyEvents (rest ++ [te]) s = handleEvent te.1 te.2 (applyEvents rest s) := by
      simp [applyEvents, List.foldl_append]
    rw [happ, hud, handleEvent_snapshot_devices]
    have hup : upsertsTo k (rest ++ [te]) =
        upsertsTo k rest ++ upsertsTo k [te] := by
      simp [upsertsTo, List.filterMap_append]
    by_cases hk : u = k
    · have hsing : upsertsTo k [te] = [d] := by
        simp [upsertsTo, hud, hk]
      rw [hk, getKey_setKey_self, hup, hsing, List.getLast?_concat]
      rfl
    · have hsing : upsertsTo k [te] = [] := by
        simp [upsertsTo, hud, hk]
      rw [getKey_setKey_ne _ _ _ _ (Ne.symm hk), hup, hsing, List.append_nil]
      exact ih hrest

/-! Helper lemmas about the throughput meter. -/

theorem handleEvent_lastFrameTs_ge (t : Nat) (e : StreamEvent) (s : AppState)
    (c : Nat) (hc : c ≤ s.lastFrameTs) (ht : c ≤ t) :
    c ≤ (handleEvent t e s).lastFrameTs := by
  cases e with
  | snapshot uid d =>
    rw [handleEvent_snapshot_eq]
    by_cases h0 : s.lastFrameTs = 0
    · simp only [if_pos h0]
      rw [if_neg (by omega)]
      exact ht
    · simp only [if_neg h0]
      by_cases hb : 1000 ≤ t - s.lastFrameTs
      · rw [if_pos hb]
        exact ht
      · rw [if_neg hb]
        exact hc
  | removed uid => exact hc
  | probeFailed reason => exact hc
  | unknown => exact hc

theorem applyEvents_lastFrameTs_ge (es : List (Nat × StreamEvent)) (s : AppState)
    (c : Nat) (hc : c ≤ s.lastFrameTs) (hts : ∀ te ∈ es, c ≤ te.1) :
    c ≤ (applyEvents es s).lastFrameTs := by
  induction es generalizing s with
  | nil => exact hc
  | cons te rest ih =>
    refine ih (handleEvent te.1 te.2 s) ?_ ?_
    · exact handleEvent_lastFrameTs_ge te.1 te.2 s c hc (hts te (by simp))
    · exact fun x hx => hts x (List.mem_cons_of_mem te hx)

theorem fps_change_step (t : Nat) (e : StreamEvent) (s : AppState)
    (h : (handleEvent t e s).fps ≠ s.fps) :
    s.lastFrameTs ≠ 0 ∧ s.lastFrameTs + 1000 ≤ t ∧
      (handleEvent t e s).lastFrameTs = t := by
  cases e with
  | snapshot uid d =>
    rw [handleEvent_snapshot_eq] at h ⊢
    by_cases h0 : s.lastFrameTs = 0
    · exfalso
      apply h
      simp only [if_pos h0]
      rw [if_neg (by omega)]
    · simp only [if_neg h0] at h ⊢
      by_cases hb : 1000 ≤ t - s.lastFrameTs
      · refine ⟨h0, by omega, ?_⟩
        rw [if_pos hb]
      · exfalso
        apply h
        rw [if_neg hb]
  | removed uid => exact absurd rfl h
  | probeFailed reason => exact absurd rfl h
  | unknown => exact absurd rfl h

/-! Helper lemmas about the comparator and the stable sort. -/

theorem strCmp_nonpos (a b : String) : strCmp a b ≤ 0 ↔ a ≤ b := by
  unfold strCmp
  rcases lt_trichotomy a b with h | h | h
  · simp [h, le_of_lt h, not_lt.mpr (le_of_lt h)]
  · subst h
    simp
  · simp [not_lt.mpr (le_of_lt h), h, not_le.mpr h]

theorem devLE_trans (sort : SortType) (a b c : DeviceSnapshot)
    (hab : devLE sort a b = true) (hbc : devLE sort b c = true) :
    devLE sort a c = true := by
  simp only [devLE, decide_eq_true_eq] at hab hbc ⊢
  cases sort with
  | status => simp only [compareDevices] at hab hbc ⊢; omega
  | port =>
    simp only [compareDevices, strCmp_nonpos] at hab hbc ⊢
    exact le_trans hab hbc
  | updated => simp only [compareDevices] at hab hbc ⊢; omega

theorem devLE_total (sort : SortType) (a b : DeviceSnapshot) :
    (devLE sort a b || devLE sort b a) = true := by
  simp only [devLE, Bool.or_eq_true, decide_eq_true_eq]
  cases sort with
  | status => simp only [compareDevices]; omega
  | port =>
    simp only [compareDevices, strCmp_nonpos]
    exact le_total a.port b.port
  | updated => simp only [compareDevices]; omega

theorem mergeSort_filter_stable (le : DeviceSnapshot → DeviceSnapshot → Bool)
    (htrans : ∀ a b c, le a b = true → le b c = true → le a c = true)
    (htotal : ∀ a b, (le a b || le b a) = true)
    (p : DeviceSnapshot → Bool)
    (hp : ∀ a b, p a = true → p b = true → le a b = true)
    (l : List DeviceSnapshot) :
    (l.mergeSort le).filter p = l.filter p := by
  have hpw : List.Pairwise (fun a b => le a b = true) (l.filter p) := by
    refine List.pairwise_of_forall_mem_list ?_
    intro a ha b hb
    exact hp a b (List.of_mem_filter ha) (List.of_mem_filter hb)
  have hsub : (l.filter p).Sublist (l.mergeSort le) :=
    List.sublist_mergeSort htrans htotal hpw (List.filter_sublist l)
  have hsub2 : ((l.filter p).filter p).Sublist ((l.mergeSort le).filter p) :=
    List.Sublist.filter p hsub
  have hff : (l.filter p).filter p = l.filter p := by
    rw [List.filter_filter]
    simp
  rw [hff] at hsub2
  have hlen : ((l.mergeSort le).filter p).length = (l.filter p).length :=
    List.Perm.length_eq (List.Perm.filter p (List.mergeSort_perm l le))
  exact (List.Sublist.eq_of_length hsub2 hlen.symm).symm

/-! Helper lemmas about the projection predicate. -/

theorem passes_ok_empty (d : DeviceSnapshot) :
    passes .ok "" d = decide (d.ok = some true) := by
  have h : jsToLower (jsTrim "") = "" := rfl
  simp [passes, h, filterDevice]

theorem passes_all_abc (d : DeviceSnapshot) :
    passes .all "abc" d = strContains (jsToLower (labelOf d)) "abc" := by
  have h : jsToLower (jsTrim "abc") = "abc" := rfl
  have hne : ¬ ("abc" : String) = "" := by decide
  simp [passes, h, hne, filterDevice]

theorem passes_of_search_nonempty (f : FilterType) (str : String) (d : DeviceSnapshot)
    (h : jsToLower (jsTrim str) ≠ "") :
    passes f str d =
      (strContains (jsToLower (labelOf d)) (jsToLower (jsTrim str)) && filterDevice d f) := by
  simp [passes, h]

/-! Claim theorems. -/

/-- C1: last-write-wins reconciliation. Over any trace of snapshot events,
possibly interleaving several keys, the final canonical record for a key is
exactly the data of the last snapshot delivered for that key, and the
canonical set holds at most one record per key after every prefix of the
trace. -/
theorem snapshot_last_write_wins (es : List (Nat × StreamEvent)) (s : AppState)
    (k : String) (ds : List DeviceSnapshot)
    (hall : ∀ te ∈ es, isSnapshot te.2 = true)
    (hup : upsertsTo k es = ds) (hne : ds ≠ [])
    (hnodup : keysNodup s.devices) :
    getKey (applyEvents es s).devices k = some (ds.getLast hne) ∧
    ∀ n, keysNodup ((applyEvents (es.take n) s).devices) := by
  constructor
  · rw [getKey_applyEvents_snapshots es s k hall, hup, List.getLast?_eq_getLast ds hne]
    rfl
  · intro n
    exact keysNodup_applyEvents _ s hnodup

/-- Witness for C1 at the concrete trace exTrace: the record for key A ends
as the last snapshot written for A. -/
theorem snapshot_last_write_wins_witness :
    getKey (applyEvents exTrace emptyState).devices ("A") = some exDevice := by
  have h := (snapshot_last_write_wins exTrace emptyState ("A") [exDeviceT, exDevice]
    (by decide) (by decide) (by decide) (by decide)).1
  exact h.trans (by decide)

/-- C2 counterexample: at the concrete active state exState, closing the
stream of the current session clears the session id but leaves the canonical
device set intact, refuting the claim that the close handler also clears the
canonical set. -/
theorem onclose_clears_devices_counterexample :
    (onClose ("s1") exState).sessionId = none ∧
    (onClose ("s1") exState).devices ≠ [] := by
  decide

/-- C2 amended: when the push stream closes while its connection still
belongs to the current session, the session id is cleared (the system
becomes inactive) and every other field, the canonical device set included,
stays unchanged; the set is only cleared by the next start or stop. -/
theorem onclose_current_session (sid : String) (s : AppState)
    (h : s.sessionId = some sid) :
    onClose sid s = { s with sessionId := none } := by
  simp [onClose, h]

/-- Witness for the amended C2 at the concrete state exState. -/
theorem onclose_current_session_witness :
    onClose ("s1") exState = { exState with sessionId := none } :=
  onclose_current_session ("s1") exState (by decide)

/-- C3: throughput meter. On each snapshot the frame counter is incremented;
once the elapsed time since window start reaches 1000 ms the published rate
becomes round(count*1000/elapsed) and counter and window start are reset to
now; below 1000 ms the published rate does not change; and any two
successive rate changes are at least 1000 ms apart on a trace whose
intermediate timestamps do not precede the first change. -/
theorem throughput_meter :
    (∀ (now : Nat) (uid : String) (d : DeviceSnapshot) (s : AppState),
      (1000 ≤ now - (if s.lastFrameTs = 0 then now else s.lastFrameTs) →
        (handleEvent now (.snapshot uid d) s).fps =
          jsRound ((s.frames + 1) * 1000)
            (now - (if s.lastFrameTs = 0 then now else s.lastFrameTs)) ∧
        (handleEvent now (.snapshot uid d) s).frames = 0 ∧
        (handleEvent now (.snapshot uid d) s).lastFrameTs = now) ∧
      (now - (if s.lastFrameTs = 0 then now else s.lastFrameTs) < 1000 →
        (handleEvent now (.snapshot uid d) s).fps = s.fps ∧
        (handleEvent now (.snapshot uid d) s).frames = s.frames + 1)) ∧
    (∀ (t1 : Nat) (e1 : StreamEvent) (mid : List (Nat × StreamEvent)) (t2 : Nat)
      (e2 : StreamEvent) (s : AppState),
      (∀ te ∈ mid, t1 ≤ te.1) →
      (handleEvent t1 e1 s).fps ≠ s.fps →
      (handleEvent t2 e2 (applyEvents mid (handleEvent t1 e1 s))).fps ≠
        (applyEvents mid (handleEvent t1 e1 s)).fps →
      t1 + 1000 ≤ t2) := by
  constructor
  · intro now uid d s
    constructor
    · intro hb
      rw [handleEvent_snapshot_eq, if_pos hb]
      exact ⟨rfl, rfl, rfl⟩
    · intro hb
      rw [handleEvent_snapshot_eq, if_neg (by omega)]
      exact ⟨rfl, rfl⟩
  · intro t1 e1 mid t2 e2 s hmid h1 h2
    obtain ⟨-, -, hlast1⟩ := fps_change_step t1 e1 s h1
    have hge : t1 ≤ (applyEvents mid (handleEvent t1 e1 s)).lastFrameTs :=
      applyEvents_lastFrameTs_ge mid _ t1 (le_of_eq hlast1.symm) hmid
    obtain ⟨-, hstep2, -⟩ := fps_change_step t2 e2 _ h2
    omega

/-- Witness for C3: a concrete trace with two rate publications exactly
1000 ms apart (at 1001 ms and 2001 ms, with a counted frame in between). -/
theorem throughput_meter_witness : 1001 + 1000 ≤ 2001 :=
  throughput_meter.2 1001 (.snapshot ("A") exDevice)
    [(1500, .snapshot ("A") exDevice)] 2001 (.snapshot ("B") exDeviceB) exMeterState
    (by decide) (by decide) (by decide)

/-- C4: project with the ok filter, empty search and status sort returns
exactly the records with ok = true, sorted ascending by severity rank
(testing 0, not-ok 1, ok 2, unknown 3), stably (records of equal rank keep
their canonical insertion order), and re-invocation on unchanged input
returns the same sequence. -/
theorem project_ok_status (m : DeviceMap) :
    List.Perm (project m .ok "" .status)
      ((m.map (fun p => p.2)).filter (fun d => decide (d.ok = some true))) ∧
    List.Pairwise (fun a b => statusOrder a ≤ statusOrder b) (project m .ok "" .status) ∧
    (∀ r : Int, (project m .ok "" .status).filter (fun d => decide (statusOrder d = r)) =
      ((m.map (fun p => p.2)).filter (fun d => decide (d.ok = some true))).filter
        (fun d => decide (statusOrder d = r))) ∧
    project m .ok "" .status = project m .ok "" .status := by
  have hfil : (m.map (fun p => p.2)).filter (passes .ok "") =
      (m.map (fun p => p.2)).filter (fun d => decide (d.ok = some true)) :=
    List.filter_congr (fun d _ => passes_ok_empty d)
  have hdef : project m .ok "" .status =
      ((m.map (fun p => p.2)).filter (fun d => decide (d.ok = some true))).mergeSort
        (devLE .status) := by
    rw [project, hfil]
  refine ⟨?_, ?_, ?_, rfl⟩
  · rw [hdef]
    exact List.mergeSort_perm _ _
  · rw [hdef]
    have hs := List.sorted_mergeSort (devLE_trans .status) (devLE_total .status)
      ((m.map (fun p => p.2)).filter (fun d => decide (d.ok = some true)))
    exact hs.imp (fun hab => by
      simpa [devLE, compareDevices, sub_nonpos] using hab)
  · intro r
    rw [hdef]
    exact mergeSort_filter_stable (devLE .status) (devLE_trans .status) (devLE_total .status)
      (fun d => decide (statusOrder d = r))
      (fun a b ha hb => by
        simp only [decide_eq_true_eq] at ha hb
        simp [devLE, compareDevices, ha, hb]) _

/-- C5: project with the all filter, search abc and port sort returns
exactly the records whose case-folded label (identifier, space, port)
contains abc as a substring, sorted ascending lexicographically by port; and
in general a non-empty normalized search text combines with the active
filter by logical AND. -/
theorem project_search_port (m : DeviceMap) :
    List.Perm (project m .all "abc" .port)
      ((m.map (fun p => p.2)).filter
        (fun d => strContains (jsToLower (labelOf d)) "abc")) ∧
    List.Pairwise (fun a b => a.port ≤ b.port) (project m .all "abc" .port) ∧
    (∀ (f : FilterType) (str : String) (d : DeviceSnapshot),
      jsToLower (jsTrim str) ≠ "" →
      passes f str d =
        (strContains (jsToLower (labelOf d)) (jsToLower (jsTrim str)) &&
          filterDevice d f)) := by
  have hfil : (m.map (fun p => p.2)).filter (passes .all "abc") =
      (m.map (fun p => p.2)).filter
        (fun d => strContains (jsToLower (labelOf d)) "abc") :=
    List.filter_congr (fun d _ => passes_all_abc d)
  have hdef : project m .all "abc" .port =
      ((m.map (fun p => p.2)).filter
        (fun d => strContains (jsToLower (labelOf d)) "abc")).mergeSort (devLE .port) := by
    rw [project, hfil]
  refine ⟨?_, ?_, fun f str d h => passes_of_search_nonempty f str d h⟩
  · rw [hdef]
    exact List.mergeSort_perm _ _
  · rw [hdef]
    have hs := List.sorted_mergeSort (devLE_trans .port) (devLE_total .port)
      ((m.map (fun p => p.2)).filter
        (fun d => strContains (jsToLower (labelOf d)) "abc"))
    exact hs.imp (fun hab => by
      simpa [devLE, compareDevices, strCmp_nonpos] using hab)

/-- Witness for C5: the AND law instantiated at a concrete device and
search text. -/
theorem project_search_port_witness :
    passes .all "abc" exDevice =
      (strContains (jsToLower (labelOf exDevice)) (jsToLower (jsTrim "abc")) &&
        filterDevice exDevice .all) :=
  (project_search_port []).2.2 .all "abc" exDevice (by decide)

/-- C6 counterexample: upsert stores the delivered data verbatim. At this
concrete input the stored record keeps its upstream updated field 42 rather
than receiving the handler time 1000, refuting the claim's "sets updated to
the current time" part. -/
theorem upsert_updated_counterexample :
    getKey ((handleEvent 1000 (.snapshot ("A") exDevice) emptyState).devices) ("A") =
      some exDevice ∧
    getKey ((handleEvent 1000 (.snapshot ("A") exDevice) emptyState).devices) ("A") ≠
      some { exDevice with updated := some 1000 } := by
  decide

/-- C6 amended: upsert replaces any existing record for the key with the
record built verbatim from the delivered data (the updated field stays as
delivered upstream, not the local handler time), and it is idempotent:
replaying the same data leaves the canonical set unchanged. -/
theorem upsert_replaces_verbatim (now now2 : Nat) (k : String) (d : DeviceSnapshot)
    (s : AppState) :
    getKey ((handleEvent now (.snapshot k d) s).devices) k = some d ∧
    (handleEvent now2 (.snapshot k d) (handleEvent now (.snapshot k d) s)).devices =
      (handleEvent now (.snapshot k d) s).devices := by
  constructor
  · rw [handleEvent_snapshot_devices]
    exact getKey_setKey_self _ _ _
  · rw [handleEvent_snapshot_devices, handleEvent_snapshot_devices, setKey_idem]

/-- C7 counterexample: from the concrete store state observable while a stop
is awaiting its API call (a session active, the loading flag false because
stop never sets it), an issued start is not a no-op: the guard does not fire
and the state changes, refuting the claim's "or stop operation" part. -/
theorem start_guard_counterexample :
    (stopInFlightState exState).sessionId ≠ none ∧
    (stopInFlightState exState).loading = false ∧
    startRun (.ok ("s2")) (stopInFlightState exState) ≠ stopInFlightState exState := by
  decide

/-- C7 amended: a start issued while a start is in flight (the loading flag
is set, which only start itself does) is ignored rather than queued and
leaves every field of the state unchanged; the guard does not cover an
in-flight stop, which never sets the loading flag. -/
theorem start_single_flight (r : ApiResult) (s : AppState) (h : s.loading = true) :
    startRun r s = s := by
  simp [startRun, h]

/-- Witness for the amended C7 at a concrete loading state. -/
theorem start_single_flight_witness :
    startRun (.ok ("s2")) { exState with loading := true } =
      { exState with loading := true } :=
  start_single_flight (.ok ("s2")) { exState with loading := true } rfl

/-- C8: a close event tagged with a superseded session id is ignored
entirely: when a different session is current, the whole state, the current
session id and canonical device set included, stays exactly as it was. -/
theorem stale_close_ignored (sid cur : String) (s : AppState)
    (hcur : s.sessionId = some cur) (hne : cur ≠ sid) :
    onClose sid s = s := by
  have h : ¬ s.sessionId = some sid := by
    rw [hcur]
    simp [hne]
  simp [onClose, h]

/-- Witness for C8: session s2 is current and a stale close for s1 arrives. -/
theorem stale_close_ignored_witness :
    onClose ("s1") { exState with sessionId := some ("s2") } =
      { exState with sessionId := some ("s2") } :=
  stale_close_ignored ("s1") ("s2") { exState with sessionId := some ("s2") } rfl (by decide)

/-- C9: remove on an absent key leaves the whole state unchanged and raises
no error; the error field is never modified by a removal; on a present key
it deletes exactly that record: the key reads back empty and every other key
is untouched. -/
theorem remove_semantics (now : Nat) (k : String) (s : AppState) :
    (getKey s.devices k = none → handleEvent now (.removed k) s = s) ∧
    (handleEvent now (.removed k) s).error = s.error ∧
    getKey ((handleEvent now (.removed k) s).devices) k = none ∧
    (∀ k', k' ≠ k →
      getKey ((handleEvent now (.removed k) s).devices) k' = getKey s.devices k') := by
  refine ⟨?_, rfl, ?_, ?_⟩
  · intro h
    show { s with devices := deleteKey s.devices k } = s
    rw [deleteKey_of_absent s.devices k h]
  · exact getKey_deleteKey_self s.devices k
  · exact fun k' h => getKey_deleteKey_ne s.devices k k' h

/-- Witness for C9: removing the absent key Z from the concrete state
exState is the identity. -/
theorem remove_semantics_witness :
    handleEvent 5 (.removed ("Z")) exState = exState :=
  (remove_semantics 5 ("Z") exState).1 (by decide)

/-- C10: handleEvent never changes session identity, the loading flag, the
session configuration fields (mode, auto, profile, simulate,
includeSimulator) or the projection criteria (filter, search, sort),
whatever the inbound envelope is. -/
theorem handle_event_frame (now : Nat) (e : StreamEvent) (s : AppState) :
    (handleEvent now e s).sessionId = s.sessionId ∧
    (handleEvent now e s).loading = s.loading ∧
    (handleEvent now e s).mode = s.mode ∧
    (handleEvent now e s).auto = s.auto ∧
    (handleEvent now e s).profile = s.profile ∧
    (handleEvent now e s).simulate = s.simulate ∧
    (handleEvent now e s).includeSimulator = s.includeSimulator ∧
    (handleEvent now e s).filter = s.filter ∧
    (handleEvent now e s).search = s.search ∧
    (handleEvent now e s).sort = s.sort := by
  cases e with
  | snapshot uid d =>
    rw [handleEvent_snapshot_eq]
    split <;> split <;> exact ⟨rfl, rfl, rfl, rfl, rfl, rfl, rfl, rfl, rfl, rfl⟩
  | removed uid => exact ⟨rfl, rfl, rfl, rfl, rfl, rfl, rfl, rfl, rfl, rfl⟩
  | probeFailed reason => exact ⟨rfl, rfl, rfl, rfl, rfl, rfl, rfl, rfl, rfl, rfl⟩
  | unknown => exact ⟨rfl, rfl, rfl, rfl, rfl, rfl, rfl, rfl, rfl, rfl⟩

end MultiInst
